import Mathlib

/-!
Shallow embedding of the screen-analyzer Obsidian export module
(src/src-tauri/src/obsidian/mod.rs) and proofs about its
metrics/aggregation and templating functions.

Conventions of the embedding:
* Rust i64 values are modelled as unbounded Int (the quantities involved are
  minute counts and percentage scores, far from the i64 range).
* Rust integer division (which truncates toward zero) is modelled as Int.tdiv.
* Rust a.max(b) / a.min(b) are modelled as max a b / min a b.
* Timeline-card timestamps are RFC3339 strings parsed by the external chrono
  crate; the embedding models a timestamp by its parse result: an
  Option Int of seconds (none = the text fails to parse).  The difference
  of two parsed instants in whole minutes, truncated toward zero, is exactly
  what chrono Duration::num_minutes returns.
* Rust str::replace (left-to-right, non-overlapping replacement of every
  occurrence) is re-implemented on character lists (rust_replace below); the
  module never calls it with an empty pattern.
-/

/-- Category buckets, mirroring ActivityCategory from the llm plugin. -/
inductive ActivityCategory where
  | Work
  | Communication
  | Learning
  | Personal
  | Idle
  | Other
deriving DecidableEq, Repr

/-- Timeline card row (storage::TimelineCardRecord), restricted to the fields
the exporter reads: the category text and the two timestamps, the latter
modelled by their chrono parse results (seconds since an epoch, or none when
the RFC3339 text does not parse).  The title/subcategory/summary text fields
play no role in the claims and are omitted. -/
structure TimelineCardRecord where
  start_time : Option Int
  end_time : Option Int
  category : String
deriving DecidableEq, Repr

/-- Model of Rust str::to_lowercase as used here: per-character lowercasing
(the category labels compared are plain ASCII words). -/
def rust_to_lowercase (s : String) : String :=
  String.mk (s.data.map Char.toLower)

/-- Model of Rust str::trim: drop leading and trailing whitespace. -/
def rust_trim (s : String) : String :=
  String.mk ((s.data.dropWhile Char.isWhitespace).reverse.dropWhile
    Char.isWhitespace).reverse

/-- Translation of normalize_timeline_category (mod.rs:1383). -/
def normalize_timeline_category (raw : String) : ActivityCategory :=
  match rust_to_lowercase raw with
  | "work" => ActivityCategory.Work
  | "communication" | "meeting" => ActivityCategory.Communication
  | "learning" | "research" => ActivityCategory.Learning
  | "personal" => ActivityCategory.Personal
  | "idle" | "break" => ActivityCategory.Idle
  | _ => ActivityCategory.Other

/-- Translation of parse_card_minutes (mod.rs:1394): when both timestamps
parse, the whole-minute difference (truncated toward zero) floored at 0;
otherwise 0. -/
def parse_card_minutes (card : TimelineCardRecord) : Int :=
  match card.start_time, card.end_time with
  | some s, some e => max (Int.tdiv (e - s) 60) 0
  | _, _ => 0

/-- Week focus accumulator (mod.rs:1146), fields in source order. -/
structure WeekFocusMetrics where
  total_minutes : Int
  work_minutes : Int
  learning_minutes : Int
  communication_minutes : Int
  personal_minutes : Int
  idle_minutes : Int
  other_minutes : Int
deriving DecidableEq, Repr

/-- Default (all-zero) WeekFocusMetrics, as derived by #[derive(Default)]. -/
def WeekFocusMetrics.default : WeekFocusMetrics :=
  ⟨0, 0, 0, 0, 0, 0, 0⟩

/-- Translation of WeekFocusMetrics::add_card (mod.rs:1183): cards whose
parsed duration is not positive are skipped; otherwise the duration is added
to total_minutes and to the bucket selected by normalize_timeline_category. -/
def WeekFocusMetrics.add_card (m : WeekFocusMetrics) (card : TimelineCardRecord) :
    WeekFocusMetrics :=
  let minutes := parse_card_minutes card
  if minutes ≤ 0 then m
  else
    let m1 := { m with total_minutes := m.total_minutes + minutes }
    match normalize_timeline_category card.category with
    | ActivityCategory.Work => { m1 with work_minutes := m1.work_minutes + minutes }
    | ActivityCategory.Learning => { m1 with learning_minutes := m1.learning_minutes + minutes }
    | ActivityCategory.Communication =>
        { m1 with communication_minutes := m1.communication_minutes + minutes }
    | ActivityCategory.Personal => { m1 with personal_minutes := m1.personal_minutes + minutes }
    | ActivityCategory.Idle => { m1 with idle_minutes := m1.idle_minutes + minutes }
    | ActivityCategory.Other => { m1 with other_minutes := m1.other_minutes + minutes }

/-- Translation of WeekFocusMetrics::add_cards (mod.rs:1177). -/
def WeekFocusMetrics.add_cards (m : WeekFocusMetrics) (cards : List TimelineCardRecord) :
    WeekFocusMetrics :=
  cards.foldl WeekFocusMetrics.add_card m

/-- Translation of WeekFocusMetrics::focus_minutes (mod.rs:1200). -/
def WeekFocusMetrics.focus_minutes (m : WeekFocusMetrics) : Int :=
  m.work_minutes + m.learning_minutes

/-- Translation of WeekFocusMetrics::distraction_minutes (mod.rs:1204). -/
def WeekFocusMetrics.distraction_minutes (m : WeekFocusMetrics) : Int :=
  m.personal_minutes + m.idle_minutes + m.other_minutes

/-- Translation of WeekFocusMetrics::focus_ratio (mod.rs:1208). -/
def WeekFocusMetrics.focus_ratio (m : WeekFocusMetrics) : Int :=
  if m.total_minutes = 0 then 0
  else max (Int.tdiv (m.focus_minutes * 100) m.total_minutes) 0

/-- Translation of WeekFocusMetrics::distraction_ratio (mod.rs:1216). -/
def WeekFocusMetrics.distraction_ratio (m : WeekFocusMetrics) : Int :=
  if m.total_minutes = 0 then 0
  else max (Int.tdiv (m.distraction_minutes * 100) m.total_minutes) 0

/-- Translation of WeekFocusMetrics::effort_score (mod.rs:1224). -/
def WeekFocusMetrics.effort_score (m : WeekFocusMetrics) (target_minutes : Int) : Int :=
  if m.total_minutes = 0 ∨ target_minutes ≤ 0 then 0
  else max (min (Int.tdiv (m.total_minutes * 100) target_minutes) 100) 0

/-- Translation of WeekFocusMetrics::focus_score (mod.rs:1232). -/
def WeekFocusMetrics.focus_score (m : WeekFocusMetrics) : Int :=
  m.focus_ratio

/-- Translation of WeekFocusMetrics::productivity_score (mod.rs:1236). -/
def WeekFocusMetrics.productivity_score (m : WeekFocusMetrics)
    (focus_weight effort_weight target_minutes : Int) : Int :=
  let total_weight := max (focus_weight + effort_weight) 1
  Int.tdiv (m.focus_score * focus_weight + m.effort_score target_minutes * effort_weight)
    total_weight

/-- Week score configuration (mod.rs:1170). -/
structure WeekScoreConfig where
  focus_weight : Int
  effort_weight : Int
  target_minutes : Int
deriving DecidableEq, Repr

/-- Translation of render_week_focus_metrics (mod.rs:1286): the zero-data
marker when total_minutes is 0, otherwise the formatted block. -/
def render_week_focus_metrics (metrics : WeekFocusMetrics) (score : WeekScoreConfig) : String :=
  if metrics.total_minutes = 0 then "暂无可用专注度数据"
  else
    let focus_score := metrics.focus_score
    let effort_score := metrics.effort_score score.target_minutes
    let productivity_score :=
      metrics.productivity_score score.focus_weight score.effort_weight score.target_minutes
    "- 专注时长: " ++ toString metrics.focus_minutes ++ " 分钟 (" ++
      toString metrics.focus_ratio ++ "%)\n" ++
    "- 沟通时长: " ++ toString metrics.communication_minutes ++ " 分钟\n" ++
    "- 分心时长: " ++ toString metrics.distraction_minutes ++ " 分钟 (" ++
      toString metrics.distraction_ratio ++ "%)\n" ++
    "- 专注评分: " ++ toString focus_score ++ " / 100\n" ++
    "- 投入时长评分: " ++ toString effort_score ++ " / 100（目标 " ++
      toString score.target_minutes ++ " 分钟）\n" ++
    "- 生产力评分: " ++ toString productivity_score ++ " / 100（权重 " ++
      toString score.focus_weight ++ "% / " ++ toString score.effort_weight ++ "%）\n" ++
    "- 细分: 工作 " ++ toString metrics.work_minutes ++ " / 学习 " ++
      toString metrics.learning_minutes ++ " / 个人 " ++ toString metrics.personal_minutes ++
      " / 空闲 " ++ toString metrics.idle_minutes ++ " / 其他 " ++ toString metrics.other_minutes

/-- Session metrics record (mod.rs:1138). -/
structure SessionMetrics where
  timeline_cards : Nat
  context_switches : Nat
  avg_segment_minutes : Int
  fragmentation_level : String
deriving DecidableEq, Repr

/-- Loop body of count_context_switches (mod.rs:1357): the mutable
last_category/switches loop written as structural recursion. -/
def count_switches_loop (last_category : Option String) :
    List TimelineCardRecord → Nat
  | [] => 0
  | card :: rest =>
    let category := rust_to_lowercase card.category
    let inc :=
      match last_category with
      | some last => if last ≠ category then 1 else 0
      | none => 0
    inc + count_switches_loop (some category) rest

/-- Translation of count_context_switches (mod.rs:1357). -/
def count_context_switches (cards : List TimelineCardRecord) : Nat :=
  count_switches_loop none cards

/-- Translation of build_session_metrics (mod.rs:1249). -/
def build_session_metrics (cards : List TimelineCardRecord) (duration_minutes : Int) :
    SessionMetrics :=
  let timeline_cards := cards.length
  let context_switches := count_context_switches cards
  let avg_segment_minutes : Int :=
    if timeline_cards = 0 then 0
    else max (Int.tdiv duration_minutes (timeline_cards : Int)) 0
  let fragmentation_level :=
    if context_switches ≤ 1 then "低"
    else if context_switches ≤ 3 then "中"
    else "高"
  ⟨timeline_cards, context_switches, avg_segment_minutes, fragmentation_level⟩

/-- Translation of render_metrics (mod.rs:1272). -/
def render_metrics (metrics : SessionMetrics) : String :=
  if metrics.timeline_cards = 0 then "暂无指标"
  else
    "- 片段数量: " ++ toString metrics.timeline_cards ++
    "\n- 上下文切换: " ++ toString metrics.context_switches ++
    "\n- 平均片段时长: " ++ toString metrics.avg_segment_minutes ++
    " 分钟\n- 碎片化等级: " ++ metrics.fragmentation_level

/-- Translation of sanitize_filename (mod.rs:1467). -/
def sanitize_filename (raw : String) : String :=
  String.mk (raw.data.map fun c =>
    if c = '/' ∨ c = '\\' ∨ c = ':' ∨ c = '*' ∨ c = '?' ∨ c = '\"' ∨ c = '<' ∨ c = '>' ∨ c = '|'
    then '_' else c)

/-- Consumes pat from the front of the second list; some r returns the
remaining input after the pattern, none means the pattern does not match. -/
def stripPat : List Char → List Char → Option (List Char)
  | [], l => some l
  | _ :: _, [] => none
  | p :: ps, c :: cs => if p = c then stripPat ps cs else none

/-- Scanning loop of Rust str::replace for a non-empty pattern p0 :: ps:
left to right, non-overlapping, every occurrence replaced by rep.  The Nat
argument is recursion fuel; every call site supplies at least the length of
the input list, which is always sufficient because each step consumes at
least one input character. -/
def scanReplaceFuel (p0 : Char) (ps rep : List Char) : Nat → List Char → List Char
  | _, [] => []
  | 0, l => l
  | fuel + 1, c :: rest =>
    match (if c = p0 then stripPat ps rest else none) with
    | some remaining => rep ++ scanReplaceFuel p0 ps rep fuel remaining
    | none => c :: scanReplaceFuel p0 ps rep fuel rest

/-- Model of Rust str::replace as used by this module (every call in the
module passes a non-empty pattern, so the empty-pattern case is immaterial
and maps the input through unchanged). -/
def rust_replace (s pat rep : String) : String :=
  match pat.data with
  | [] => s
  | p :: ps => String.mk (scanReplaceFuel p ps rep.data s.data.length s.data)

/-- Translation of render_template (mod.rs:1489): start from the user
template when present (the blank-filter happens at the call sites, see
render_note below), else the fallback, then sequentially replace every
occurrence of each double-brace placeholder by its value. -/
def render_template (template : Option String) (fallback : String)
    (values : List (String × String)) : String :=
  values.foldl
    (fun content kv => rust_replace content ("\x7b\x7b" ++ kv.1 ++ "\x7d\x7d") kv.2)
    (template.getD fallback)

/-- Call pattern shared by render_daily_note (mod.rs:410) and
render_session_note (mod.rs:510): the user template is used only when it is
present and non-blank. -/
def render_note (user_template : Option String) (default_template : String)
    (values : List (String × String)) : String :=
  render_template (user_template.filter fun t => !(rust_trim t).data.isEmpty)
    default_template values

/-- Translation of compact_summary_text (mod.rs:1374): newlines and carriage
returns become spaces; text longer than max_len characters is truncated to
max_len characters and suffixed with an ellipsis. -/
def compact_summary_text (text : String) (max_len : Nat) : String :=
  let cleaned := rust_replace (rust_replace text "\n" " ") "\r" " "
  if cleaned.data.length ≤ max_len then cleaned
  else String.mk (cleaned.data.take max_len) ++ "..."

/-- Day summary row (domains::summary::DaySummary), restricted to the
narrative text used by the weekly highlight builder. -/
structure DaySummaryRecord where
  summary_text : String
deriving DecidableEq, Repr

/-- Calendar days are modelled as day numbers (Int); day 0 is a Monday, so
consecutive numbers are consecutive days and the external chrono rendering
of a date is modelled by the decimal text of its number. -/
def date_text (day : Int) : String :=
  toString day

/-- Loop body of the daily-highlight while loop in build_week_summary
(mod.rs:1007): one line per day, a Daily link plus either the 140-character
compacted day summary or the no-summary marker when the fetch fails or
returns nothing. -/
def highlight_line (fetch_day_summary : Int → Except String (Option DaySummaryRecord))
    (day : Int) : String :=
  let link := "[[Daily/" ++ date_text day ++ "]]"
  let summary_text :=
    match fetch_day_summary day with
    | Except.ok (some summary) => compact_summary_text summary.summary_text 140
    | _ => "暂无总结"
  "- " ++ link ++ ": " ++ summary_text

/-- Helper: the list of days visited by a cursor loop that runs a given
number of steps, advancing one day per step. -/
def date_range_go (cursor : Int) : Nat → List Int
  | 0 => []
  | Nat.succ n => cursor :: date_range_go (cursor + 1) n

/-- Days visited by the loop: while cursor is at most stop, visit cursor and
advance one day; it runs exactly (stop + 1 - start).toNat times. -/
def date_range (start stop : Int) : List Int :=
  date_range_go start (stop + 1 - start).toNat

/-- Modelled from the spec: the external chrono calls from_isoywd(Mon) and
from_isoywd(Sun) in build_week_summary (mod.rs:929) yield the Monday of the
ISO week containing the given day and the Sunday six days later; with day 0
a Monday, the Monday of the week of a day is the day minus its weekday
index. -/
def week_start_of (day : Int) : Int :=
  day - day % 7

/-- Sunday of the ISO week of a day: six days after its Monday. -/
def week_end_of (day : Int) : Int :=
  week_start_of day + 6

/-- Daily-highlight section of build_week_summary (mod.rs:1007): one
highlight line per day from week_start through week_end. -/
def build_daily_highlights (fetch_day_summary : Int → Except String (Option DaySummaryRecord))
    (week_start week_end : Int) : List String :=
  (date_range week_start week_end).map (highlight_line fetch_day_summary)

/-- Daily highlights produced by build_week_summary for the ISO week of a
given day. -/
def build_week_summary_highlights
    (fetch_day_summary : Int → Except String (Option DaySummaryRecord)) (day : Int) :
    List String :=
  build_daily_highlights fetch_day_summary (week_start_of day) (week_end_of day)

/-- Session row (storage::Session), restricted to the id read by the
warning-formatting path of export_day. -/
structure SessionRecord where
  id : Option Int
deriving DecidableEq, Repr

/-- Week summary value (mod.rs:1156), restricted to the parts the
orchestration claims touch. -/
structure WeekSummaryData where
  week_label : String
  focus_metrics : WeekFocusMetrics
  score_config : WeekScoreConfig
  daily_highlights : List String
deriving Repr

/-- Export configuration fields read by export_day. -/
structure ObsidianExportConfig where
  vault_path : String
  root_folder : String
  include_screenshots : Bool
deriving DecidableEq, Repr

/-- Outcome record of export_day (mod.rs:22), paths modelled as strings. -/
structure ExportOutcome where
  daily_note_path : String
  session_paths : List String
  index_note_path : Option String
  week_index_path : Option String
  weekly_note_path : Option String
  overview_path : Option String
  warnings : List String
deriving Repr

/-- Results of the effectful collaborator steps of one export_day run
(filesystem, storage, summarizer).  Each field is the outcome the
corresponding call would produce, so the orchestration logic of export_day
can be stated as a pure function of this environment. -/
structure ExportEnv where
  vault_exists : Bool
  create_dirs : Except String Unit
  day_summary : Except String String
  sessions : Except String (List SessionRecord)
  export_session : SessionRecord → Except String (String × String)
  daily_write : Except String Unit
  month_index : Except String String
  week_summary : Except String WeekSummaryData
  week_index : WeekSummaryData → Except String String
  weekly_note : WeekSummaryData → Except String String
  overview : Option WeekSummaryData → Except String String

/-- Per-session loop of export_day (mod.rs:142): successful sessions
contribute a path and a link, failures append a warning naming the session. -/
def export_sessions_loop (env : ExportEnv) (sessions : List SessionRecord) :
    List String × List String × List String :=
  sessions.foldl
    (fun acc s =>
      match env.export_session s with
      | Except.ok pl => (acc.1 ++ [pl.1], acc.2.1 ++ [pl.2], acc.2.2)
      | Except.error e =>
          (acc.1, acc.2.1,
            acc.2.2 ++ ["会话 " ++ toString (s.id.getD 0) ++ " 导出失败: " ++ e]))
    ([], [], [])

/-- Translation of the orchestration of ObsidianExporter::export_day
(mod.rs:96): fatal steps propagate as Except.error in source order;
recoverable steps (month index, week summary and its two documents,
overview) convert their failures into warnings, preserving the source
warning order and texts. -/
def export_day (cfg : ObsidianExportConfig) (env : ExportEnv) (date : String) :
    Except String ExportOutcome :=
  if (rust_trim cfg.vault_path).data.isEmpty then Except.error "未配置 Obsidian Vault 路径"
  else if !env.vault_exists then Except.error "Obsidian Vault 路径不存在"
  else
    let root :=
      if (rust_trim cfg.root_folder).data.isEmpty then rust_trim cfg.vault_path
      else rust_trim cfg.vault_path ++ "/" ++ rust_trim cfg.root_folder
    match env.create_dirs with
    | Except.error e => Except.error e
    | Except.ok _ =>
      match env.day_summary with
      | Except.error e => Except.error e
      | Except.ok _ =>
        match env.sessions with
        | Except.error e => Except.error e
        | Except.ok sessions =>
          let folded := export_sessions_loop env sessions
          let session_paths := folded.1
          let warnings0 := folded.2.2
          match env.daily_write with
          | Except.error e => Except.error e
          | Except.ok _ =>
            let daily_note_path := root ++ "/Daily/" ++ sanitize_filename date ++ ".md"
            let step_index :=
              match env.month_index with
              | Except.ok p => (some p, warnings0)
              | Except.error e => (none, warnings0 ++ ["索引生成失败: " ++ e])
            let index_note_path := step_index.1
            let warnings1 := step_index.2
            let step_week :=
              match env.week_summary with
              | Except.ok summary =>
                let step_wi :=
                  match env.week_index summary with
                  | Except.ok p => (some p, warnings1)
                  | Except.error e => (none, warnings1 ++ ["周索引生成失败: " ++ e])
                let step_wn :=
                  match env.weekly_note summary with
                  | Except.ok p => (some p, step_wi.2)
                  | Except.error e => (none, step_wi.2 ++ ["周报生成失败: " ++ e])
                (some summary, step_wi.1, step_wn.1, step_wn.2)
              | Except.error e =>
                (none, none, none, warnings1 ++ ["周报数据生成失败: " ++ e])
            let week_summary_opt := step_week.1
            let week_index_path := step_week.2.1
            let weekly_note_path := step_week.2.2.1
            let warnings2 := step_week.2.2.2
            let step_overview :=
              match env.overview week_summary_opt with
              | Except.ok p => (some p, warnings2)
              | Except.error e => (none, warnings2 ++ ["总览生成失败: " ++ e])
            Except.ok
              { daily_note_path := daily_note_path
                session_paths := session_paths
                index_note_path := index_note_path
                week_index_path := week_index_path
                weekly_note_path := weekly_note_path
                overview_path := step_overview.1
                warnings := step_overview.2 }

/-- Marker text of a double-brace placeholder. -/
def placeholder_marker (key : String) : String :=
  "\x7b\x7b" ++ key ++ "\x7d\x7d"

/-- Modelled from the spec words for comparison with render_template: a
simultaneous (single-pass) substitution that walks the original template once
and, at each position, substitutes the first mapping entry whose marker
starts there; values that are pasted in are never rescanned.  Fuel-based
structural recursion; fuel at least the input length is sufficient. -/
def simultaneous_subst_go (values : List (String × String)) :
    Nat → List Char → List Char
  | _, [] => []
  | 0, l => l
  | fuel + 1, c :: rest =>
    match values.find? (fun kv => ((placeholder_marker kv.1).data.length ≤ rest.length + 1) &&
        (stripPat (placeholder_marker kv.1).data (c :: rest)).isSome) with
    | some kv =>
        kv.2.data ++
          simultaneous_subst_go values fuel
            (List.drop ((placeholder_marker kv.1).data.length - 1) rest)
    | none => c :: simultaneous_subst_go values fuel rest

/-- Spec-side simultaneous substitution over a whole template. -/
def simultaneous_subst (template : String) (values : List (String × String)) : String :=
  String.mk (simultaneous_subst_go values template.data.length template.data)

theorem parse_card_minutes_nonneg (card : TimelineCardRecord) :
    0 ≤ parse_card_minutes card := by
  unfold parse_card_minutes
  cases card.start_time <;> cases card.end_time <;> simp

/-- Invariant maintained by add_card: all buckets are non-negative and the
six buckets sum exactly to the running total. -/
def metrics_inv (m : WeekFocusMetrics) : Prop :=
  0 ≤ m.work_minutes ∧ 0 ≤ m.learning_minutes ∧ 0 ≤ m.communication_minutes ∧
  0 ≤ m.personal_minutes ∧ 0 ≤ m.idle_minutes ∧ 0 ≤ m.other_minutes ∧
  m.work_minutes + m.learning_minutes + m.communication_minutes +
    m.personal_minutes + m.idle_minutes + m.other_minutes = m.total_minutes

theorem add_card_inv (m : WeekFocusMetrics) (card : TimelineCardRecord)
    (h : metrics_inv m) : metrics_inv (m.add_card card) := by
  obtain ⟨h1, h2, h3, h4, h5, h6, h7⟩ := h
  unfold WeekFocusMetrics.add_card
  by_cases hm : parse_card_minutes card ≤ 0
  · simp only [hm, if_true, if_pos]
    exact ⟨h1, h2, h3, h4, h5, h6, h7⟩
  · rw [if_neg hm]
    push_neg at hm
    cases hcat : normalize_timeline_category card.category <;>
      simp only [metrics_inv] <;> refine ⟨?_, ?_, ?_, ?_, ?_, ?_, ?_⟩ <;>
      dsimp only <;> omega

theorem add_cards_inv (cards : List TimelineCardRecord) (m : WeekFocusMetrics)
    (h : metrics_inv m) : metrics_inv (m.add_cards cards) := by
  unfold WeekFocusMetrics.add_cards
  induction cards generalizing m with
  | nil => exact h
  | cons c rest ih => exact ih _ (add_card_inv m c h)

theorem ratio_sum_le (f d t : Int) (_hf : 0 ≤ f) (_hd : 0 ≤ d) (ht : 0 < t)
    (hfd : f + d ≤ t) : f * 100 / t + d * 100 / t ≤ 100 := by
  have hmodf := Int.ediv_add_emod (f * 100) t
  have hmodd := Int.ediv_add_emod (d * 100) t
  have hrf : 0 ≤ f * 100 % t := Int.emod_nonneg _ (by omega)
  have hrd : 0 ≤ d * 100 % t := Int.emod_nonneg _ (by omega)
  have hmain : t * (f * 100 / t + d * 100 / t) ≤ t * 100 := by nlinarith
  exact le_of_mul_le_mul_left hmain ht

/-- C1: accumulating any sequence of timeline cards from the all-zero
WeekFocusMetrics via add_card keeps all six bucket totals and total_minutes
non-negative, makes focus_minutes + distraction_minutes +
communication_minutes equal total_minutes exactly, and whenever
total_minutes is positive forces focus_ratio + distraction_ratio ≤ 100. -/
theorem add_card_accumulation_invariants (cards : List TimelineCardRecord) :
    let m := WeekFocusMetrics.default.add_cards cards
    (0 ≤ m.work_minutes ∧ 0 ≤ m.learning_minutes ∧ 0 ≤ m.communication_minutes ∧
      0 ≤ m.personal_minutes ∧ 0 ≤ m.idle_minutes ∧ 0 ≤ m.other_minutes ∧
      0 ≤ m.total_minutes) ∧
    m.focus_minutes + m.distraction_minutes + m.communication_minutes = m.total_minutes ∧
    (0 < m.total_minutes → m.focus_ratio + m.distraction_ratio ≤ 100) := by
  intro m
  have hinv : metrics_inv m :=
    add_cards_inv cards WeekFocusMetrics.default
      ⟨le_refl 0, le_refl 0, le_refl 0, le_refl 0, le_refl 0, le_refl 0, rfl⟩
  obtain ⟨h1, h2, h3, h4, h5, h6, h7⟩ := hinv
  refine ⟨⟨h1, h2, h3, h4, h5, h6, by omega⟩, ?_, ?_⟩
  · unfold WeekFocusMetrics.focus_minutes WeekFocusMetrics.distraction_minutes
    omega
  · intro ht
    have htne : m.total_minutes ≠ 0 := by omega
    have hfnn : 0 ≤ m.focus_minutes := by
      unfold WeekFocusMetrics.focus_minutes; omega
    have hdnn : 0 ≤ m.distraction_minutes := by
      unfold WeekFocusMetrics.distraction_minutes; omega
    have hfd : m.focus_minutes + m.distraction_minutes ≤ m.total_minutes := by
      unfold WeekFocusMetrics.focus_minutes WeekFocusMetrics.distraction_minutes
      omega
    have hftd : Int.tdiv (m.focus_minutes * 100) m.total_minutes =
        m.focus_minutes * 100 / m.total_minutes :=
      Int.tdiv_eq_ediv (by positivity) (by omega)
    have hdtd : Int.tdiv (m.distraction_minutes * 100) m.total_minutes =
        m.distraction_minutes * 100 / m.total_minutes :=
      Int.tdiv_eq_ediv (by positivity) (by omega)
    have hfr : m.focus_ratio = m.focus_minutes * 100 / m.total_minutes := by
      unfold WeekFocusMetrics.focus_ratio
      rw [if_neg htne, hftd]
      exact max_eq_left (Int.ediv_nonneg (by positivity) (by omega))
    have hdr : m.distraction_ratio = m.distraction_minutes * 100 / m.total_minutes := by
      unfold WeekFocusMetrics.distraction_ratio
      rw [if_neg htne, hdtd]
      exact max_eq_left (Int.ediv_nonneg (by positivity) (by omega))
    rw [hfr, hdr]
    exact ratio_sum_le _ _ _ hfnn hdnn ht hfd

theorem add_card_accumulation_invariants_witness :
    0 < (WeekFocusMetrics.default.add_cards
        [TimelineCardRecord.mk (some 0) (some 3600) "work"]).total_minutes ∧
    (WeekFocusMetrics.default.add_cards
        [TimelineCardRecord.mk (some 0) (some 3600) "work"]).focus_ratio +
      (WeekFocusMetrics.default.add_cards
        [TimelineCardRecord.mk (some 0) (some 3600) "work"]).distraction_ratio ≤ 100 :=
  ⟨by decide,
    (add_card_accumulation_invariants
      [TimelineCardRecord.mk (some 0) (some 3600) "work"]).2.2 (by decide)⟩

theorem tdiv_nonpos_of_nonpos (a b : Int) (ha : a ≤ 0) (hb : 0 ≤ b) : a.tdiv b ≤ 0 := by
  have h := @Int.tdiv_nonneg (-a) b (by omega) hb
  rw [Int.neg_tdiv] at h
  omega

theorem effort_score_nonneg (m : WeekFocusMetrics) (tm : Int) : 0 ≤ m.effort_score tm := by
  unfold WeekFocusMetrics.effort_score
  split
  · exact le_refl 0
  · exact le_max_right _ _

theorem effort_score_le_hundred (m : WeekFocusMetrics) (tm : Int) :
    m.effort_score tm ≤ 100 := by
  unfold WeekFocusMetrics.effort_score
  split
  · norm_num
  · exact max_le (min_le_right _ _) (by norm_num)

theorem effort_score_eq_zero_of_nonpos (m : WeekFocusMetrics) (tm : Int)
    (h : m.total_minutes ≤ 0) : m.effort_score tm = 0 := by
  unfold WeekFocusMetrics.effort_score
  by_cases h0 : m.total_minutes = 0 ∨ tm ≤ 0
  · rw [if_pos h0]
  · rw [if_neg h0]
    push_neg at h0
    have htm : 0 < tm := h0.2
    have hq : Int.tdiv (m.total_minutes * 100) tm ≤ 0 :=
      tdiv_nonpos_of_nonpos _ _ (by nlinarith) (by omega)
    have : min (Int.tdiv (m.total_minutes * 100) tm) 100 ≤ 0 :=
      le_trans (min_le_left _ _) hq
    omega

theorem focus_score_nonneg (m : WeekFocusMetrics) : 0 ≤ m.focus_score := by
  unfold WeekFocusMetrics.focus_score WeekFocusMetrics.focus_ratio
  split
  · exact le_refl 0
  · exact le_max_right _ _

/-- C6: effort_score equals min(100, floor(total_minutes*100/target_minutes))
for positive total and target, is 0 when total_minutes is 0 or the target is
non-positive, is monotonically non-decreasing in total_minutes for a fixed
target, and never exceeds 100. -/
theorem effort_score_spec (m m2 : WeekFocusMetrics) (tm : Int) :
    (0 < m.total_minutes → 0 < tm →
      m.effort_score tm = min 100 (Int.fdiv (m.total_minutes * 100) tm)) ∧
    (m.total_minutes = 0 ∨ tm ≤ 0 → m.effort_score tm = 0) ∧
    (m.total_minutes ≤ m2.total_minutes → m.effort_score tm ≤ m2.effort_score tm) ∧
    m.effort_score tm ≤ 100 := by
  refine ⟨?_, ?_, ?_, effort_score_le_hundred m tm⟩
  · intro ht htm
    unfold WeekFocusMetrics.effort_score
    rw [if_neg (by omega)]
    have htd : Int.tdiv (m.total_minutes * 100) tm = m.total_minutes * 100 / tm :=
      Int.tdiv_eq_ediv (by positivity) (by omega)
    have hfd : Int.fdiv (m.total_minutes * 100) tm = m.total_minutes * 100 / tm :=
      Int.fdiv_eq_ediv _ (by omega)
    have hnn : 0 ≤ m.total_minutes * 100 / tm := Int.ediv_nonneg (by positivity) (by omega)
    rw [htd, hfd, max_eq_left (le_min hnn (by norm_num)), min_comm]
  · intro h
    unfold WeekFocusMetrics.effort_score
    rw [if_pos h]
  · intro hle
    by_cases hpos : 0 < m.total_minutes
    · have hpos2 : 0 < m2.total_minutes := by omega
      by_cases htm : tm ≤ 0
      · unfold WeekFocusMetrics.effort_score
        rw [if_pos (Or.inr htm), if_pos (Or.inr htm)]
      · push_neg at htm
        unfold WeekFocusMetrics.effort_score
        rw [if_neg (by omega), if_neg (by omega)]
        have h1 : Int.tdiv (m.total_minutes * 100) tm = m.total_minutes * 100 / tm :=
          Int.tdiv_eq_ediv (by positivity) (by omega)
        have h2 : Int.tdiv (m2.total_minutes * 100) tm = m2.total_minutes * 100 / tm :=
          Int.tdiv_eq_ediv (by positivity) (by omega)
        rw [h1, h2]
        exact max_le_max
          (min_le_min (Int.ediv_le_ediv htm (by nlinarith)) (le_refl 100)) (le_refl 0)
    · push_neg at hpos
      exact le_trans (le_of_eq (effort_score_eq_zero_of_nonpos m tm hpos))
        (effort_score_nonneg m2 tm)

theorem effort_score_spec_witness :
    (0 : Int) < (WeekFocusMetrics.mk 450 0 0 0 0 0 0).total_minutes ∧ (0 : Int) < 300 ∧
    (WeekFocusMetrics.mk 450 0 0 0 0 0 0).effort_score 300 =
      min 100 (Int.fdiv ((WeekFocusMetrics.mk 450 0 0 0 0 0 0).total_minutes * 100) 300) :=
  ⟨by decide, by decide,
    (effort_score_spec (WeekFocusMetrics.mk 450 0 0 0 0 0 0)
      (WeekFocusMetrics.mk 450 0 0 0 0 0 0) 300).1 (by decide) (by decide)⟩

/-- C4: the division in each ratio and in the effort score is guarded (all
return 0 when total_minutes is 0, and then the productivity score is 0 as
well), the productivity divisor is max(focus_weight + effort_weight, 1),
which is at least 1, and a metrics value with total_minutes = 0 renders as
the explicit no-focus-data marker instead of computed zeros. -/
theorem guarded_division_spec (m : WeekFocusMetrics) (sc : WeekScoreConfig)
    (fw ew tm : Int) :
    (m.total_minutes = 0 →
      m.focus_ratio = 0 ∧ m.distraction_ratio = 0 ∧ m.effort_score tm = 0 ∧
      m.productivity_score fw ew tm = 0 ∧
      render_week_focus_metrics m sc = "暂无可用专注度数据") ∧
    m.productivity_score fw ew tm =
      Int.tdiv (m.focus_score * fw + m.effort_score tm * ew) (max (fw + ew) 1) ∧
    1 ≤ max (fw + ew) 1 := by
  refine ⟨?_, rfl, le_max_right _ _⟩
  intro h0
  have hfr : m.focus_ratio = 0 := by
    unfold WeekFocusMetrics.focus_ratio
    rw [if_pos h0]
  have hdr : m.distraction_ratio = 0 := by
    unfold WeekFocusMetrics.distraction_ratio
    rw [if_pos h0]
  have hes : m.effort_score tm = 0 := by
    unfold WeekFocusMetrics.effort_score
    rw [if_pos (Or.inl h0)]
  refine ⟨hfr, hdr, hes, ?_, ?_⟩
  · unfold WeekFocusMetrics.productivity_score
    have hfs : m.focus_score = 0 := hfr
    rw [hfs, hes]
    simp [Int.zero_tdiv]
  · unfold render_week_focus_metrics
    rw [if_pos h0]

theorem guarded_division_spec_witness :
    WeekFocusMetrics.default.total_minutes = 0 ∧
    WeekFocusMetrics.default.focus_ratio = 0 ∧
    WeekFocusMetrics.default.productivity_score 70 30 300 = 0 ∧
    render_week_focus_metrics WeekFocusMetrics.default (WeekScoreConfig.mk 70 30 300) =
      "暂无可用专注度数据" := by
  have h := (guarded_division_spec WeekFocusMetrics.default
    (WeekScoreConfig.mk 70 30 300) 70 30 300).1 (by decide)
  exact ⟨by decide, h.1, h.2.2.2.1, h.2.2.2.2⟩

/-- Concrete metrics refuting the unrestricted floor formula for the
productivity score: focus ratio 50 out of 2 total minutes. -/
def productivity_cex_metrics : WeekFocusMetrics :=
  WeekFocusMetrics.mk 2 1 0 0 1 0 0

/-- C2 counterexample: with focus_weight = -1 and effort_weight = 4 the
truncating division of the code differs from the mathematical floor the
claim states for every focus_weight and effort_weight: the code yields -16
where the floor formula yields -17. -/
theorem productivity_floor_counterexample :
    ¬ (productivity_cex_metrics.productivity_score (-1) 4 0 =
        Int.fdiv (productivity_cex_metrics.focus_score * (-1) +
          productivity_cex_metrics.effort_score 0 * 4) (max ((-1) + 4) 1)) := by
  decide

/-- C2 amended: for non-negative focus_weight and effort_weight (the only
weights the exporter ever builds, since ScoreConfig derives them from a
weight clamped into [0,100]) productivity_score equals
floor((focus_score*focus_weight + effort_score*effort_weight) /
max(1, focus_weight + effort_weight)); in particular, for
focus_weight=70, effort_weight=30, target_minutes=300, total_minutes=300 and
focus_minutes=210 it equals 79. -/
theorem productivity_floor_amended (m : WeekFocusMetrics) (fw ew tm : Int)
    (hfw : 0 ≤ fw) (hew : 0 ≤ ew) :
    m.productivity_score fw ew tm =
      Int.fdiv (m.focus_score * fw + m.effort_score tm * ew) (max (fw + ew) 1) ∧
    (WeekFocusMetrics.mk 300 210 0 0 90 0 0).productivity_score 70 30 300 = 79 := by
  constructor
  · have hnum : 0 ≤ m.focus_score * fw + m.effort_score tm * ew :=
      add_nonneg (mul_nonneg (focus_score_nonneg m) hfw)
        (mul_nonneg (effort_score_nonneg m tm) hew)
    have hden : (0 : Int) ≤ max (fw + ew) 1 := le_trans zero_le_one (le_max_right _ _)
    unfold WeekFocusMetrics.productivity_score
    rw [Int.tdiv_eq_ediv hnum hden, Int.fdiv_eq_ediv _ hden]
  · decide

theorem productivity_floor_amended_witness :
    (WeekFocusMetrics.mk 300 210 0 0 90 0 0).productivity_score 70 30 300 =
      Int.fdiv ((WeekFocusMetrics.mk 300 210 0 0 90 0 0).focus_score * 70 +
        (WeekFocusMetrics.mk 300 210 0 0 90 0 0).effort_score 300 * 30)
        (max (70 + 30) 1) :=
  (productivity_floor_amended (WeekFocusMetrics.mk 300 210 0 0 90 0 0) 70 30 300
    (by decide) (by decide)).1

/-- C7: the category classifier is total (a Lean function) and
case-insensitive on the lowered text: each listed lowercase label maps to its
bucket, every other lowered value (including the empty string) maps to
Other, and in particular WORK maps to Work and unknown-xyz to Other. -/
theorem normalize_category_spec :
    (∀ s, rust_to_lowercase s = "work" → normalize_timeline_category s = ActivityCategory.Work) ∧
    (∀ s, rust_to_lowercase s = "communication" ∨ rust_to_lowercase s = "meeting" →
      normalize_timeline_category s = ActivityCategory.Communication) ∧
    (∀ s, rust_to_lowercase s = "learning" ∨ rust_to_lowercase s = "research" →
      normalize_timeline_category s = ActivityCategory.Learning) ∧
    (∀ s, rust_to_lowercase s = "personal" →
      normalize_timeline_category s = ActivityCategory.Personal) ∧
    (∀ s, rust_to_lowercase s = "idle" ∨ rust_to_lowercase s = "break" →
      normalize_timeline_category s = ActivityCategory.Idle) ∧
    (∀ s, rust_to_lowercase s ∉
        (["work", "communication", "meeting", "learning", "research",
          "personal", "idle", "break"] : List String) →
      normalize_timeline_category s = ActivityCategory.Other) ∧
    normalize_timeline_category "WORK" = ActivityCategory.Work ∧
    normalize_timeline_category "unknown-xyz" = ActivityCategory.Other ∧
    normalize_timeline_category "" = ActivityCategory.Other := by
  refine ⟨?_, ?_, ?_, ?_, ?_, ?_, by decide, by decide, by decide⟩
  · intro s h
    unfold normalize_timeline_category
    rw [h]
    rfl
  · rintro s (h | h) <;> (unfold normalize_timeline_category; rw [h]) <;> rfl
  · rintro s (h | h) <;> (unfold normalize_timeline_category; rw [h]) <;> rfl
  · intro s h
    unfold normalize_timeline_category
    rw [h]
    rfl
  · rintro s (h | h) <;> (unfold normalize_timeline_category; rw [h]) <;> rfl
  · intro s h
    unfold normalize_timeline_category
    split <;> simp_all

theorem normalize_category_spec_witness :
    rust_to_lowercase "WoRk" = "work" ∧
    normalize_timeline_category "WoRk" = ActivityCategory.Work :=
  ⟨by decide, normalize_category_spec.1 "WoRk" (by decide)⟩

/-- Specification-side count of adjacent transitions whose category text
differs from the immediately preceding entry. -/
def adjacent_switches (cats : List String) : Nat :=
  (cats.zip cats.tail).countP fun p => decide (p.1 ≠ p.2)

theorem count_switches_loop_eq (cards : List TimelineCardRecord) (l : String) :
    count_switches_loop (some l) cards =
      adjacent_switches (l :: cards.map fun c => rust_to_lowercase c.category) := by
  induction cards generalizing l with
  | nil => rfl
  | cons c rest ih =>
    simp only [count_switches_loop, List.map_cons]
    rw [ih (rust_to_lowercase c.category)]
    simp only [adjacent_switches, List.map_cons, List.tail_cons, List.zip_cons_cons,
      List.countP_cons, decide_eq_true_eq]
    split_ifs <;> omega

/-- C8: count_context_switches equals the number of adjacent-card transitions
whose lowercased category differs from the preceding card, is at most
length - 1 for a non-empty card list, and fragmentation_level is the low
marker for at most 1 switch, the medium marker for 2 or 3 switches, and the
high marker for 4 or more. -/
theorem context_switch_spec (cards : List TimelineCardRecord) (dur : Int) :
    count_context_switches cards =
      adjacent_switches (cards.map fun c => rust_to_lowercase c.category) ∧
    (cards ≠ [] → count_context_switches cards ≤ cards.length - 1) ∧
    (count_context_switches cards ≤ 1 →
      (build_session_metrics cards dur).fragmentation_level = "低") ∧
    (2 ≤ count_context_switches cards → count_context_switches cards ≤ 3 →
      (build_session_metrics cards dur).fragmentation_level = "中") ∧
    (4 ≤ count_context_switches cards →
      (build_session_metrics cards dur).fragmentation_level = "高") := by
  have hmain : count_context_switches cards =
      adjacent_switches (cards.map fun c => rust_to_lowercase c.category) := by
    cases cards with
    | nil => rfl
    | cons c rest =>
      simp only [count_context_switches, count_switches_loop, List.map_cons,
        count_switches_loop_eq rest]
      simp [adjacent_switches]
  refine ⟨hmain, ?_, ?_, ?_, ?_⟩
  · intro hne
    rw [hmain]
    have h1 : adjacent_switches (cards.map fun c => rust_to_lowercase c.category) ≤
        ((cards.map fun c => rust_to_lowercase c.category).zip
          (cards.map fun c => rust_to_lowercase c.category).tail).length :=
      List.countP_le_length _
    rw [List.length_zip] at h1
    have h2 := min_le_right ((cards.map fun c => rust_to_lowercase c.category).length)
      ((cards.map fun c => rust_to_lowercase c.category).tail.length)
    have h3 : (cards.map fun c => rust_to_lowercase c.category).tail.length =
        cards.length - 1 := by
      rw [List.length_tail, List.length_map]
    omega
  · intro h
    simp only [build_session_metrics]
    rw [if_pos h]
  · intro h2 h3
    simp only [build_session_metrics]
    rw [if_neg (by omega), if_pos h3]
  · intro h4
    simp only [build_session_metrics]
    rw [if_neg (by omega), if_neg (by omega)]

theorem context_switch_spec_witness :
    [TimelineCardRecord.mk none none "Work", TimelineCardRecord.mk none none "personal",
      TimelineCardRecord.mk none none "WORK"] ≠ ([] : List TimelineCardRecord) ∧
    count_context_switches
        [TimelineCardRecord.mk none none "Work", TimelineCardRecord.mk none none "personal",
          TimelineCardRecord.mk none none "WORK"] ≤
      [TimelineCardRecord.mk none none "Work", TimelineCardRecord.mk none none "personal",
        TimelineCardRecord.mk none none "WORK"].length - 1 :=
  ⟨by decide,
    (context_switch_spec
      [TimelineCardRecord.mk none none "Work", TimelineCardRecord.mk none none "personal",
        TimelineCardRecord.mk none none "WORK"] 0).2.1 (by decide)⟩

/-- Sample placeholder mapping of render_session_note (mod.rs:516) with
concrete field values. -/
def sample_session_values : List (String × String) :=
  [("date", "2024-05-01"), ("session_id", "7"), ("start", "09:00"), ("end", "10:00"),
   ("duration_minutes", "60"), ("title", "写周报"), ("summary", "总结文本"),
   ("tags", "[work]"), ("timeline", "- 时间线"), ("metrics", "- 指标"),
   ("context_switches", "2"), ("fragmentation_level", "中"),
   ("video_link", ""), ("screenshots", "")]

/-- C5: the note renderers use the user template exactly when it is present
and non-blank and the computed default otherwise; substitution replaces
every occurrence of each mapped double-brace placeholder and leaves
placeholders absent from the mapping untouched, as on the session template
containing the title marker followed by an unknown marker. -/
theorem render_template_selection_spec :
    (∀ t d vs, (rust_trim t).data.isEmpty = false →
      render_note (some t) d vs = render_template (some t) d vs) ∧
    (∀ t d vs, (rust_trim t).data.isEmpty = true →
      render_note (some t) d vs = render_template none d vs) ∧
    (∀ d vs, render_note none d vs = render_template none d vs) ∧
    render_note (some "\x7b\x7btitle\x7d\x7d\x7b\x7bunknown_key\x7d\x7d") "默认模板"
        sample_session_values = "写周报\x7b\x7bunknown_key\x7d\x7d" ∧
    render_note (some "\x7b\x7btitle\x7d\x7d 与 \x7b\x7btitle\x7d\x7d") "默认模板"
        sample_session_values = "写周报 与 写周报" := by
  refine ⟨?_, ?_, ?_, by decide, by decide⟩
  · intro t d vs h
    simp [render_note, Option.filter, h]
  · intro t d vs h
    simp [render_note, Option.filter, h]
  · intro d vs
    simp [render_note, Option.filter]

theorem render_template_selection_spec_witness :
    (rust_trim "\x7b\x7btitle\x7d\x7d").data.isEmpty = false ∧
    render_note (some "\x7b\x7btitle\x7d\x7d") "默认" sample_session_values =
      render_template (some "\x7b\x7btitle\x7d\x7d") "默认" sample_session_values :=
  ⟨by decide,
    render_template_selection_spec.1 "\x7b\x7btitle\x7d\x7d" "默认"
      sample_session_values (by decide)⟩

/-- C10: substitution is sequential in mapping order, not simultaneous — a
marker appearing inside the substituted value of an earlier key is itself
replaced by a later key, so the result differs from a single-pass
substitution of the original template. -/
theorem sequential_subst_differs_from_simultaneous :
    render_template (some "\x7b\x7ba\x7d\x7d") "后备"
        [("a", "\x7b\x7bb\x7d\x7d"), ("b", "X")] = "X" ∧
    simultaneous_subst "\x7b\x7ba\x7d\x7d" [("a", "\x7b\x7bb\x7d\x7d"), ("b", "X")] =
      "\x7b\x7bb\x7d\x7d" ∧
    render_template (some "\x7b\x7ba\x7d\x7d") "后备"
        [("a", "\x7b\x7bb\x7d\x7d"), ("b", "X")] ≠
      simultaneous_subst "\x7b\x7ba\x7d\x7d" [("a", "\x7b\x7bb\x7d\x7d"), ("b", "X")] := by
  refine ⟨by decide, by decide, by decide⟩

/-- C3: when build_week_summary fails inside export_day while all fatal
steps succeed, the failure becomes a warning, the export still returns a
successful outcome, both the week-index path and the weekly-report path are
None, and the overview step is still attempted (its result alone decides the
overview path). -/
theorem week_summary_failure_recoverable (cfg : ObsidianExportConfig) (env : ExportEnv)
    (date e ds : String) (ss : List SessionRecord)
    (hv : (rust_trim cfg.vault_path).data.isEmpty = false)
    (hx : env.vault_exists = true)
    (hc : env.create_dirs = Except.ok ())
    (hd : env.day_summary = Except.ok ds)
    (hs : env.sessions = Except.ok ss)
    (hw : env.daily_write = Except.ok ())
    (hws : env.week_summary = Except.error e) :
    ∃ outcome, export_day cfg env date = Except.ok outcome ∧
      outcome.week_index_path = none ∧
      outcome.weekly_note_path = none ∧
      ("周报数据生成失败: " ++ e) ∈ outcome.warnings ∧
      outcome.overview_path = (env.overview none).toOption := by
  cases hmi : env.month_index with
  | ok p =>
    cases hov : env.overview none with
    | ok q =>
      simp [export_day, hv, hx, hc, hd, hs, hw, hws, hmi, hov, Except.toOption]
    | error eo =>
      simp [export_day, hv, hx, hc, hd, hs, hw, hws, hmi, hov, Except.toOption]
  | error em =>
    cases hov : env.overview none with
    | ok q =>
      simp [export_day, hv, hx, hc, hd, hs, hw, hws, hmi, hov, Except.toOption]
    | error eo =>
      simp [export_day, hv, hx, hc, hd, hs, hw, hws, hmi, hov, Except.toOption]

/-- Concrete configuration for exercising the week-failure path. -/
def c3_witness_cfg : ObsidianExportConfig :=
  ⟨"vault", "", false⟩

/-- Concrete environment in which every fatal step succeeds, the
week-summary build fails, and the overview step succeeds. -/
def c3_witness_env : ExportEnv :=
  { vault_exists := true
    create_dirs := Except.ok ()
    day_summary := Except.ok "日总结"
    sessions := Except.ok []
    export_session := fun _ => Except.error "未使用"
    daily_write := Except.ok ()
    month_index := Except.ok "Index/sessions-2024-05.md"
    week_summary := Except.error "数据库查询失败"
    week_index := fun _ => Except.ok "未到达"
    weekly_note := fun _ => Except.ok "未到达"
    overview := fun _ => Except.ok "Index/overview.md" }

theorem week_summary_failure_recoverable_witness :
    ∃ outcome, export_day c3_witness_cfg c3_witness_env "2024-05-01" = Except.ok outcome ∧
      outcome.week_index_path = none ∧
      outcome.weekly_note_path = none ∧
      ("周报数据生成失败: " ++ "数据库查询失败") ∈ outcome.warnings ∧
      outcome.overview_path = (c3_witness_env.overview none).toOption :=
  week_summary_failure_recoverable c3_witness_cfg c3_witness_env "2024-05-01"
    "数据库查询失败" "日总结" [] (by decide) rfl rfl rfl rfl rfl rfl

theorem stripPat_append (ps : List Char) :
    ∀ (l r : List Char), stripPat ps l = some r → ∃ pre, l = pre ++ r := by
  induction ps with
  | nil =>
    intro l r h
    simp only [stripPat, Option.some.injEq] at h
    exact ⟨[], by simp [h]⟩
  | cons p ps ih =>
    intro l r h
    cases l with
    | nil => simp [stripPat] at h
    | cons c cs =>
      simp only [stripPat] at h
      by_cases hpc : p = c
      · rw [if_pos hpc] at h
        obtain ⟨pre, hpre⟩ := ih cs r h
        exact ⟨c :: pre, by simp [hpre]⟩
      · rw [if_neg hpc] at h
        cases h

theorem mem_scanReplaceFuel (p0 : Char) (ps rep : List Char) (x : Char) :
    ∀ (fuel : Nat) (l : List Char), x ∈ scanReplaceFuel p0 ps rep fuel l →
      x ∈ rep ∨ x ∈ l := by
  intro fuel
  induction fuel with
  | zero =>
    intro l hx
    cases l with
    | nil => simp [scanReplaceFuel] at hx
    | cons c cs => exact Or.inr (by simpa [scanReplaceFuel] using hx)
  | succ fuel ih =>
    intro l hx
    cases l with
    | nil => simp [scanReplaceFuel] at hx
    | cons c rest =>
      simp only [scanReplaceFuel] at hx
      by_cases hcp : c = p0
      · rw [if_pos hcp] at hx
        cases hsp : stripPat ps rest with
        | some remaining =>
          rw [hsp] at hx
          simp only [List.mem_append] at hx
          rcases hx with h | h
          · exact Or.inl h
          · rcases ih remaining h with h2 | h2
            · exact Or.inl h2
            · obtain ⟨pre, hpre⟩ := stripPat_append ps rest remaining hsp
              exact Or.inr (by simp [hpre, List.mem_append, h2])
        | none =>
          rw [hsp] at hx
          simp only [List.mem_cons] at hx
          rcases hx with h | h
          · exact Or.inr (by simp [h])
          · rcases ih rest h with h2 | h2
            · exact Or.inl h2
            · exact Or.inr (by simp [h2])
      · rw [if_neg hcp] at hx
        simp only [List.mem_cons] at hx
        rcases hx with h | h
        · exact Or.inr (by simp [h])
        · rcases ih rest h with h2 | h2
          · exact Or.inl h2
          · exact Or.inr (by simp [h2])

theorem scanReplaceFuel_single_removes (p0 : Char) (rep : List Char) (hrep : p0 ∉ rep) :
    ∀ (fuel : Nat) (l : List Char), l.length ≤ fuel →
      p0 ∉ scanReplaceFuel p0 [] rep fuel l := by
  intro fuel
  induction fuel with
  | zero =>
    intro l hlen
    have hl : l = [] := List.length_eq_zero.mp (Nat.le_zero.mp hlen)
    subst hl
    simp [scanReplaceFuel]
  | succ fuel ih =>
    intro l hlen
    cases l with
    | nil => simp [scanReplaceFuel]
    | cons c rest =>
      simp only [scanReplaceFuel]
      by_cases hcp : c = p0
      · rw [if_pos hcp]
        simp only [stripPat]
        intro hmem
        rcases List.mem_append.mp hmem with h | h
        · exact hrep h
        · exact ih rest (by simpa using Nat.le_of_succ_le_succ hlen) h
      · rw [if_neg hcp]
        intro hmem
        rcases List.mem_cons.mp hmem with h | h
        · exact hcp h.symm
        · exact ih rest (by simpa using Nat.le_of_succ_le_succ hlen) h

theorem mem_rust_replace (s pat rep : String) (x : Char)
    (hx : x ∈ (rust_replace s pat rep).data) : x ∈ rep.data ∨ x ∈ s.data := by
  revert hx
  unfold rust_replace
  cases hp : pat.data with
  | nil => exact fun hx => Or.inr hx
  | cons p ps => exact fun hx => mem_scanReplaceFuel p ps rep.data x s.data.length s.data hx

theorem rust_replace_removes_single (s rep : String) (p0 : Char) (pat : String)
    (hpat : pat.data = [p0]) (hrep : p0 ∉ rep.data) :
    p0 ∉ (rust_replace s pat rep).data := by
  unfold rust_replace
  rw [hpat]
  exact scanReplaceFuel_single_removes p0 rep.data hrep s.data.length s.data (le_refl _)

theorem compact_summary_text_stripped (text : String) (n : Nat) :
    '\n' ∉ (compact_summary_text text n).data ∧
    '\r' ∉ (compact_summary_text text n).data := by
  have h1 : '\n' ∉ (rust_replace text "\n" " ").data :=
    rust_replace_removes_single text " " '\n' "\n" rfl (by decide)
  have h2 : '\n' ∉ (rust_replace (rust_replace text "\n" " ") "\r" " ").data := by
    intro hmem
    rcases mem_rust_replace _ "\r" " " '\n' hmem with h | h
    · exact absurd h (by decide)
    · exact h1 h
  have h3 : '\r' ∉ (rust_replace (rust_replace text "\n" " ") "\r" " ").data :=
    rust_replace_removes_single (rust_replace text "\n" " ") " " '\r' "\r" rfl (by decide)
  simp only [compact_summary_text]
  by_cases hlen : (rust_replace (rust_replace text "\n" " ") "\r" " ").data.length ≤ n
  · simp only [if_pos hlen]
    exact ⟨h2, h3⟩
  · simp only [if_neg hlen]
    constructor <;>
      · intro hmem
        rw [String.data_append] at hmem
        rcases List.mem_append.mp hmem with h | h
        · first
          | exact h2 (List.take_subset _ _ h)
          | exact h3 (List.take_subset _ _ h)
        · simp at h

theorem compact_summary_text_length (text : String) (n : Nat) :
    (compact_summary_text text n).data.length ≤ n + 3 := by
  simp only [compact_summary_text]
  by_cases hlen : (rust_replace (rust_replace text "\n" " ") "\r" " ").data.length ≤ n
  · simp only [if_pos hlen]
    omega
  · simp only [if_neg hlen]
    rw [String.data_append, List.length_append, List.length_take]
    have h3 : ("..." : String).data.length = 3 := by decide
    omega

theorem date_range_go_length (n : Nat) : ∀ c : Int, (date_range_go c n).length = n := by
  induction n with
  | zero => intro c; rfl
  | succ n ih => intro c; simp [date_range_go, ih]

theorem date_range_go_get (n : Nat) :
    ∀ (i : Nat) (c : Int), i < n → (date_range_go c n)[i]? = some (c + i) := by
  induction n with
  | zero => intro i c h; omega
  | succ n ih =>
    intro i c h
    cases i with
    | zero => simp [date_range_go]
    | succ i =>
      simp only [date_range_go, List.getElem?_cons_succ]
      rw [ih i (c + 1) (by omega)]
      congr 1
      push_cast
      ring

/-- C9: for any fetch behaviour and any day, the week summary builds exactly
seven daily-highlight lines, one per day of the ISO week starting at its
Monday, in date order; each line is the Daily link of that day followed by
either the 140-character compacted excerpt of that day's summary or the
no-summary placeholder when the summary is absent or the fetch fails; the
excerpt is free of line breaks and at most 143 characters long. -/
theorem week_highlights_spec
    (fetch : Int → Except String (Option DaySummaryRecord)) (d : Int) :
    (build_week_summary_highlights fetch d).length = 7 ∧
    (∀ i : Nat, i < 7 →
      (build_week_summary_highlights fetch d)[i]? =
        some (highlight_line fetch (week_start_of d + i))) ∧
    (∀ x s, fetch x = Except.ok (some s) →
      highlight_line fetch x =
        "- " ++ ("[[Daily/" ++ date_text x ++ "]]") ++ ": " ++
          compact_summary_text s.summary_text 140) ∧
    (∀ x, fetch x = Except.ok none →
      highlight_line fetch x = "- " ++ ("[[Daily/" ++ date_text x ++ "]]") ++ ": " ++ "暂无总结") ∧
    (∀ x e2, fetch x = Except.error e2 →
      highlight_line fetch x = "- " ++ ("[[Daily/" ++ date_text x ++ "]]") ++ ": " ++ "暂无总结") ∧
    (∀ text, '\n' ∉ (compact_summary_text text 140).data ∧
      '\r' ∉ (compact_summary_text text 140).data ∧
      (compact_summary_text text 140).data.length ≤ 143) := by
  have hcount : (week_end_of d + 1 - week_start_of d).toNat = 7 := by
    unfold week_end_of
    have : week_start_of d + 6 + 1 - week_start_of d = 7 := by ring
    rw [this]
    rfl
  refine ⟨?_, ?_, ?_, ?_, ?_, ?_⟩
  · simp only [build_week_summary_highlights, build_daily_highlights, date_range,
      List.length_map, hcount, date_range_go_length]
  · intro i hi
    simp only [build_week_summary_highlights, build_daily_highlights, date_range,
      List.getElem?_map, hcount]
    rw [date_range_go_get 7 i (week_start_of d) hi]
    rfl
  · intro x s h
    simp [highlight_line, h]
  · intro x h
    simp [highlight_line, h]
  · intro x e2 h
    simp [highlight_line, h]
  · intro text
    exact ⟨(compact_summary_text_stripped text 140).1,
      (compact_summary_text_stripped text 140).2,
      compact_summary_text_length text 140⟩

/-- Concrete fetch behaviour: day 3 has a summary, every other fetch
fails. -/
def c9_witness_fetch (day : Int) : Except String (Option DaySummaryRecord) :=
  if day = 3 then Except.ok (some ⟨"今天写代码"⟩) else Except.error "查询失败"

theorem week_highlights_spec_witness :
    (build_week_summary_highlights c9_witness_fetch 3)[0]? =
      some (highlight_line c9_witness_fetch (week_start_of 3 + (0 : Nat))) :=
  (week_highlights_spec c9_witness_fetch 3).2.1 0 (by decide)
